import Mathlib

/-!
Verification of the training orchestrator in `src/train_DTI.py`.

The script's `main` function is shallowly embedded as a state-transition
system.  Metric values are rationals (the watched metric is a scalar),
model snapshots are identified by the epoch at which they were deep-copied
(`none` stands for the initial pre-training copy made at line 326,
`model_max = copy.deepcopy(model)`), file I/O is recorded as the list of
paths passed to `torch.save`, the wandb telemetry sink is the list of
records passed to `wandb.log`, and `logg` output is a separate list of log
lines.  Failures of the epoch loop and of the terminal test pass are
modelled with `Except` and explicit failure oracles, mirroring the fact
that the epoch loop is unguarded while the testing block (lines 519-561)
sits inside `try ... except`.
-/

/-- Zero-padded two-digit rendering of a natural number, as Python's
`{epo:02}` format specifier produces for the epoch number. -/
def pad2 (n : ℕ) : String := if n < 10 then "0" ++ toString n else toString n

/-- Per-epoch checkpoint path, from line 494:
`f"{save_dir}/{config.experiment_id}_best_model_epoch{epo:02}.pt"`. -/
def best_model_epoch_path (save_dir experiment_id : String) (epo : ℕ) : String :=
  save_dir ++ "/" ++ experiment_id ++ "_best_model_epoch" ++ pad2 epo ++ ".pt"

/-- Final model path, from line 543:
`f"{save_dir}/{config.experiment_id}_best_model.pt"`. -/
def best_model_final_path (save_dir experiment_id : String) : String :=
  save_dir ++ "/" ++ experiment_id ++ "_best_model.pt"

/-- Configuration surface of `main` relevant to the orchestration logic.
`nTrainBatches` and `nContrastiveBatches` are the lengths of
`training_generator` and `contrastive_generator`. -/
structure Config where
  epochs : ℕ
  every_n_val : ℕ
  contrastive : Bool
  do_wandb : Bool
  wandb_save : Bool
  model_save_dir : String
  experiment_id : String
  nTrainBatches : ℕ
  nContrastiveBatches : ℕ
deriving DecidableEq, Repr

/-- Mutable state threaded through the epoch loop of `main`.
`max_metric` and `model_max` are the script's variables of the same name
(lines 325-326); `records` is the history of values assigned to
`max_metric` (ghost, for the monotonicity property); `savedPaths` is the
list of paths given to `torch.save`; `validated` is the list of epochs at
which the validation block ran (ghost); `telemetry` collects `wandb.log`
records and `logLines` collects `logg` output. -/
structure TrainState where
  max_metric : ℚ
  model_max : Option ℕ
  records : List ℚ
  savedPaths : List String
  validated : List ℕ
  telemetry : List String
  logLines : List String
deriving DecidableEq, Repr

/-- State at line 370: `max_metric = 0`, `model_max` the deep copy of the
freshly initialized model, nothing saved or validated yet. -/
def initState : TrainState :=
  { max_metric := 0, model_max := none, records := [], savedPaths := [],
    validated := [], telemetry := [], logLines := [] }

/-- Telemetry record of the per-batch supervised `wandb_log` (lines 383-392). -/
def trainStepRecord (epo i : ℕ) : String :=
  "train/step " ++ toString epo ++ " " ++ toString i ++ " train/loss"

/-- Telemetry record of the per-epoch supervised `wandb_log` (lines 400-406). -/
def epochLrRecord (epo : ℕ) : String := "epoch " ++ toString epo ++ " train/lr"

/-- Telemetry record of the per-batch contrastive `wandb_log` (lines 428-439). -/
def cStepRecord (epo i : ℕ) : String :=
  "train/c_step " ++ toString epo ++ " " ++ toString i ++ " train/c_loss"

/-- Telemetry record of the per-epoch contrastive `wandb_log` (lines 448-455). -/
def contrastiveEpochRecord (epo : ℕ) : String :=
  "epoch " ++ toString epo ++ " train/triplet_margin train/contrastive_lr"

/-- Telemetry record of the validation-results `wandb_log` (line 486). -/
def valResultsRecord (epo : ℕ) : String := "val_results epoch " ++ toString epo

/-- Telemetry record of a `wandb.log_artifact` call (lines 504-508, 552-557). -/
def artifactRecord (experiment_id : String) : String := "artifact dti-" ++ experiment_id

/-- Telemetry record of the test-results `wandb_log` (line 536). -/
def testResultsRecord : String := "test_results"

/-- Log line of `logg.info(f"Saving checkpoint model to {model_save_path}")` (line 501). -/
def savingCheckpointLine (save_dir experiment_id : String) (epo : ℕ) : String :=
  "Saving checkpoint model to " ++ best_model_epoch_path save_dir experiment_id epo

/-- Log line of `logg.info(f"Saving final model to {model_save_path}")` (line 550). -/
def savingFinalLine (save_dir experiment_id : String) : String :=
  "Saving final model to " ++ best_model_final_path save_dir experiment_id

/-- Log line of `logg.error(f"Testing failed with exception {e}")` (line 560). -/
def testingError (e : String) : String := "Testing failed with exception " ++ e

/-- Embedding of `wandb_log` (lines 167-169): appends the record to the
sink if and only if `do_wandb` holds; otherwise the sink is untouched. -/
def wandb_log (m : String) (do_wandb : Bool) (t : List String) : List String :=
  if do_wandb then t ++ [m] else t

/-- Telemetry effect of the supervised pass: one `wandb_log` per batch
(lines 383-392), then the per-epoch `wandb_log` after `lr_scheduler.step()`
(lines 400-406). -/
def supPassTelemetry (cfg : Config) (epo : ℕ) (t : List String) : List String :=
  wandb_log (epochLrRecord epo) cfg.do_wandb
    ((List.range cfg.nTrainBatches).foldl
      (fun acc i => wandb_log (trainStepRecord epo i) cfg.do_wandb acc) t)

/-- Telemetry effect of the contrastive pass: one `wandb_log` per batch
(lines 428-439), then the per-epoch `wandb_log` after the two scheduler
steps (lines 448-455). -/
def conPassTelemetry (cfg : Config) (epo : ℕ) (t : List String) : List String :=
  wandb_log (contrastiveEpochRecord epo) cfg.do_wandb
    ((List.range cfg.nContrastiveBatches).foldl
      (fun acc i => wandb_log (cStepRecord epo i) cfg.do_wandb acc) t)

/-- Supervised pass of one epoch (lines 375-410): one optimizer step and
one `wandb_log` per batch, then `lr_scheduler.step()` and the per-epoch
`wandb_log`.  Only the telemetry component of the state is affected; the
parameter updates live outside the embedded state. -/
def supervisedPass (cfg : Config) (epo : ℕ) (s : TrainState) : TrainState :=
  { s with telemetry := supPassTelemetry cfg epo s.telemetry }

/-- Contrastive pass of one epoch (lines 412-465): runs only when
`config.contrastive` is set; one contrastive-optimizer step and one
`wandb_log` per batch, then `contrastive_loss_fct.step()`,
`lr_scheduler_contrastive.step()` and the per-epoch `wandb_log`. -/
def contrastivePass (cfg : Config) (epo : ℕ) (s : TrainState) : TrainState :=
  if cfg.contrastive then
    { s with telemetry := conPassTelemetry cfg epo s.telemetry }
  else s

/-- Validation block (lines 471-513): computes `val_results`, logs them,
and if the watched metric strictly exceeds `max_metric` deep-copies the
model into `model_max`, updates `max_metric`, saves a per-epoch
checkpoint, and optionally logs a wandb artifact.  `validated` and
`records` are ghost histories of the validation passes and of the values
taken by `max_metric`. -/
def validationBlock (cfg : Config) (val : ℕ → ℚ) (epo : ℕ) (s : TrainState) : TrainState :=
  let s₁ : TrainState :=
    { s with validated := s.validated ++ [epo],
             telemetry := wandb_log (valResultsRecord epo) cfg.do_wandb s.telemetry }
  if val epo > s₁.max_metric then
    let s₂ : TrainState :=
      { s₁ with model_max := some epo,
                max_metric := val epo,
                records := s₁.records ++ [val epo],
                savedPaths := s₁.savedPaths ++ [best_model_epoch_path cfg.model_save_dir cfg.experiment_id epo],
                logLines := s₁.logLines ++ [savingCheckpointLine cfg.model_save_dir cfg.experiment_id epo] }
    if cfg.do_wandb && cfg.wandb_save then
      { s₂ with telemetry := s₂.telemetry ++ [artifactRecord cfg.experiment_id] }
    else s₂
  else s₁

/-- One iteration of the epoch loop (lines 371-513): supervised pass, then
contrastive pass, then the validation block exactly when
`epo % config.every_n_val == 0`. -/
def epochBody (cfg : Config) (val : ℕ → ℚ) (epo : ℕ) (s : TrainState) : TrainState :=
  let s' := contrastivePass cfg epo (supervisedPass cfg epo s)
  if epo % cfg.every_n_val = 0 then validationBlock cfg val epo s' else s'

/-- First `n` iterations of the epoch loop, starting from `initState`.
`val epo` is the value of `val_results[config.watch_metric]` that the
validation pass of epoch `epo` would compute. -/
def runEpochs (cfg : Config) (val : ℕ → ℚ) : ℕ → TrainState
  | 0 => initState
  | n + 1 => epochBody cfg val n (runEpochs cfg val n)

/-- State after the full epoch loop `for epo in range(config.epochs)`. -/
def trainLoop (cfg : Config) (val : ℕ → ℚ) : TrainState := runEpochs cfg val cfg.epochs

/-- Result of `main`: the final state, the test metrics if the terminal
test pass succeeded, and the returned model (`return model_max`). -/
structure RunResult where
  state : TrainState
  testResult : Option ℚ
  returnedModel : Option ℕ
deriving DecidableEq, Repr

/-- Epoch loop with a failure oracle: `epochFail n = some err` means the
training passes of epoch `n` raise `err`.  The loop body has no handler
(lines 371-513 are outside any `try`), so the error propagates. -/
def runEpochsE (cfg : Config) (val : ℕ → ℚ) (epochFail : ℕ → Option String) :
    ℕ → Except String TrainState
  | 0 => .ok initState
  | n + 1 =>
    match runEpochsE cfg val epochFail n with
    | .error err => .error err
    | .ok s =>
      match epochFail n with
      | some err => .error err
      | none => .ok (epochBody cfg val n s)

/-- Terminal test block (lines 519-561): evaluates `model_max` on the test
provider, logs the results, saves the final snapshot, optionally logs a
wandb artifact.  The whole block is wrapped in `try ... except`, so a
failure (`testFail = some err`) is logged via `logg.error` and swallowed;
in every case `main` then executes `return model_max`. -/
def testingPhase (cfg : Config) (testFail : Option String) (testEval : Option ℕ → ℚ)
    (s : TrainState) : RunResult :=
  match testFail with
  | some err =>
    { state := { s with logLines := s.logLines ++ [testingError err] },
      testResult := none,
      returnedModel := s.model_max }
  | none =>
    let res := testEval s.model_max
    let s₁ : TrainState :=
      { s with telemetry := wandb_log testResultsRecord cfg.do_wandb s.telemetry }
    let s₂ : TrainState :=
      { s₁ with savedPaths := s₁.savedPaths ++ [best_model_final_path cfg.model_save_dir cfg.experiment_id],
                logLines := s₁.logLines ++ [savingFinalLine cfg.model_save_dir cfg.experiment_id] }
    let s₃ : TrainState :=
      if cfg.do_wandb && cfg.wandb_save then
        { s₂ with telemetry := s₂.telemetry ++ [artifactRecord cfg.experiment_id] }
      else s₂
    { state := s₃, testResult := some res, returnedModel := s.model_max }

/-- Embedding of `main` from the start of the epoch loop: the epoch loop
(which may abort with an uncaught error), then the guarded terminal test
block, then `return model_max`.  `testEval m` is the watched test metric
the test pass computes for snapshot `m`. -/
def mainRun (cfg : Config) (val : ℕ → ℚ) (epochFail : ℕ → Option String)
    (testFail : Option String) (testEval : Option ℕ → ℚ) : Except String RunResult :=
  match runEpochsE cfg val epochFail cfg.epochs with
  | .error err => .error err
  | .ok s => .ok (testingPhase cfg testFail testEval s)

/-- Failure oracle of a run in which no training pass fails. -/
def noFail : ℕ → Option String := fun _ => none

/-- Failure oracle of a run whose epoch `k` raises `err`. -/
def failAt (k : ℕ) (err : String) : ℕ → Option String :=
  fun e => if e = k then some err else none

/-- Training-relevant projection of the state: everything except the
telemetry sink and the log lines.  Two runs agree on training behavior
precisely when their views agree. -/
def trainingView (s : TrainState) : ℚ × Option ℕ × List ℚ × List String × List ℕ :=
  (s.max_metric, s.model_max, s.records, s.savedPaths, s.validated)

/-- Invariant of the checkpoint selector, maintained by the epoch loop:
the recorded best values are strictly increasing and bounded by
`max_metric`; whenever `model_max` points at a validated snapshot, its
metric equals `max_metric`; the sentinel `0` persists until some pass
beats it; every validated value is at most `max_metric`. -/
def CheckpointInv (val : ℕ → ℚ) (s : TrainState) : Prop :=
  s.records.Chain' (· < ·)
  ∧ (∀ r ∈ s.records, r ≤ s.max_metric)
  ∧ (∀ e, s.model_max = some e → e ∈ s.validated ∧ val e = s.max_metric)
  ∧ (s.model_max = none → s.max_metric = 0)
  ∧ (∀ f ∈ s.validated, val f ≤ s.max_metric)

/-- Events observable in one iteration of the epoch loop, in program
order: a supervised optimizer step per supervised batch (line 396),
`lr_scheduler.step()` (line 398), a contrastive optimizer step per
contrastive batch (line 443), `contrastive_loss_fct.step()` (line 445),
`lr_scheduler_contrastive.step()` (line 446), and the validation block
(line 470). -/
inductive Ev where
  | supStep : ℕ → ℕ → Ev
  | supSched : ℕ → Ev
  | conStep : ℕ → ℕ → Ev
  | marginStep : ℕ → Ev
  | conSched : ℕ → Ev
  | valPass : ℕ → Ev
deriving DecidableEq, Repr

/-- Phase rank of an event inside one epoch: the source executes the
phases in this fixed order. -/
def rank : Ev → ℕ
  | .supStep _ _ => 0
  | .supSched _ => 1
  | .conStep _ _ => 2
  | .marginStep _ => 3
  | .conSched _ => 4
  | .valPass _ => 5

/-- Event trace of one iteration of the epoch loop (lines 371-513),
transcribing the statement order of the source. -/
def epochTrace (cfg : Config) (epo : ℕ) : List Ev :=
  (List.range cfg.nTrainBatches).map (Ev.supStep epo) ++ [Ev.supSched epo]
  ++ (if cfg.contrastive then
        (List.range cfg.nContrastiveBatches).map (Ev.conStep epo)
          ++ [Ev.marginStep epo, Ev.conSched epo]
      else [])
  ++ (if epo % cfg.every_n_val = 0 then [Ev.valPass epo] else [])

/-- Schedule policies of the margin scheduler, as enumerated by the spec
(§4.3): linear decay to zero by the final epoch, cosine decay with warm
restarts every `N_restart` epochs, or constant. -/
inductive MarginKind where
  | constant
  | linear
  | cosine
deriving DecidableEq, Repr

/-- Modelled from the spec: the margin schedule of
`MarginScheduledLossFunction` is implemented in `src/margin.py`, which is
not among the provided sources (only its construction at lines 309-315 and
its `step()` call at line 445 are).  Following §4.3 of the spec, the
margin is a pure function of `(epoch_index, max_margin, N_epoch,
N_restart, schedule_kind)`: constant `M0`; linear decay from `M0` to zero
by the final epoch; or cosine decay restarting at `M0` every `N_restart`
epochs. -/
noncomputable def margin (kind : MarginKind) (M0 : ℝ) (Nepoch Nrestart : ℕ) (e : ℕ) : ℝ :=
  match kind with
  | .constant => M0
  | .linear => M0 * (1 - ((min e Nepoch : ℕ) : ℝ) / (Nepoch : ℝ))
  | .cosine =>
    M0 * ((1 + Real.cos (Real.pi * ((e % Nrestart : ℕ) : ℝ) / (Nrestart : ℝ))) / 2)

/-- Task-dependent datamodule setup of `main` (lines 213-250): every
branch overwrites `config.watch_metric` (and `config.classify`), so the
incoming value `watch_metric0` is discarded.  `isEnzPredTask` abstracts
the membership test `config.task in EnzPredDataModule.dataset_list()`
(the datamodule lives in `src/data.py`); the returned pair is
`(watch_metric, classify)`. -/
def datamoduleSetup (isEnzPredTask : String → Bool) (task : String)
    (watchMetric0 : String) : String × Bool :=
  if task = "dti_dg" then (("val/pcc"), false)
  else if isEnzPredTask task then (("val/aupr"), true)
  else (("val/aupr"), true)

/-- Concrete one-epoch configuration used for counterexamples and
witnesses. -/
def cfgZ : Config :=
  { epochs := 1, every_n_val := 1, contrastive := false, do_wandb := false,
    wandb_save := false, model_save_dir := "models", experiment_id := "exp",
    nTrainBatches := 1, nContrastiveBatches := 0 }

/-- Concrete two-epoch configuration whose best checkpoint is not the
final-epoch model. -/
def cfgB : Config :=
  { epochs := 2, every_n_val := 1, contrastive := false, do_wandb := false,
    wandb_save := false, model_save_dir := "models", experiment_id := "exp",
    nTrainBatches := 1, nContrastiveBatches := 0 }

/-- Concrete configuration with validation every second epoch. -/
def cfgE : Config :=
  { epochs := 2, every_n_val := 2, contrastive := false, do_wandb := false,
    wandb_save := false, model_save_dir := "models", experiment_id := "exp",
    nTrainBatches := 1, nContrastiveBatches := 0 }

/-- Concrete contrastive configuration for trace witnesses. -/
def cfgW : Config :=
  { epochs := 1, every_n_val := 1, contrastive := true, do_wandb := false,
    wandb_save := false, model_save_dir := "models", experiment_id := "exp",
    nTrainBatches := 1, nContrastiveBatches := 1 }

/-- Watched-metric trace that is identically zero: a valid value (e.g. an
AUPR of 0.0, or a Pearson correlation of 0.0). -/
def valZero : ℕ → ℚ := fun _ => 0

/-- Watched-metric trace that is identically `-1`: a valid Pearson
correlation (the watched metric of the `dti_dg` task). -/
def valNeg : ℕ → ℚ := fun _ => -1

/-- Watched-metric trace that is identically `1`. -/
def valOne : ℕ → ℚ := fun _ => 1

/-- Watched-metric trace peaking at epoch 0. -/
def valB : ℕ → ℚ := fun e => if e = 0 then 1 else 0

/-- Trivial test evaluation oracle. -/
def testEvalZero : Option ℕ → ℚ := fun _ => 0

/-- Concrete error message for failure witnesses. -/
def errDisk : String := "disk full"

@[simp] lemma supervisedPass_max_metric (cfg : Config) (epo : ℕ) (s : TrainState) :
    (supervisedPass cfg epo s).max_metric = s.max_metric := rfl

@[simp] lemma supervisedPass_model_max (cfg : Config) (epo : ℕ) (s : TrainState) :
    (supervisedPass cfg epo s).model_max = s.model_max := rfl

@[simp] lemma supervisedPass_records (cfg : Config) (epo : ℕ) (s : TrainState) :
    (supervisedPass cfg epo s).records = s.records := rfl

@[simp] lemma supervisedPass_savedPaths (cfg : Config) (epo : ℕ) (s : TrainState) :
    (supervisedPass cfg epo s).savedPaths = s.savedPaths := rfl

@[simp] lemma supervisedPass_validated (cfg : Config) (epo : ℕ) (s : TrainState) :
    (supervisedPass cfg epo s).validated = s.validated := rfl

@[simp] lemma supervisedPass_logLines (cfg : Config) (epo : ℕ) (s : TrainState) :
    (supervisedPass cfg epo s).logLines = s.logLines := rfl

@[simp] lemma contrastivePass_max_metric (cfg : Config) (epo : ℕ) (s : TrainState) :
    (contrastivePass cfg epo s).max_metric = s.max_metric := by
  unfold contrastivePass; split <;> rfl

@[simp] lemma contrastivePass_model_max (cfg : Config) (epo : ℕ) (s : TrainState) :
    (contrastivePass cfg epo s).model_max = s.model_max := by
  unfold contrastivePass; split <;> rfl

@[simp] lemma contrastivePass_records (cfg : Config) (epo : ℕ) (s : TrainState) :
    (contrastivePass cfg epo s).records = s.records := by
  unfold contrastivePass; split <;> rfl

@[simp] lemma contrastivePass_savedPaths (cfg : Config) (epo : ℕ) (s : TrainState) :
    (contrastivePass cfg epo s).savedPaths = s.savedPaths := by
  unfold contrastivePass; split <;> rfl

@[simp] lemma contrastivePass_validated (cfg : Config) (epo : ℕ) (s : TrainState) :
    (contrastivePass cfg epo s).validated = s.validated := by
  unfold contrastivePass; split <;> rfl

@[simp] lemma contrastivePass_logLines (cfg : Config) (epo : ℕ) (s : TrainState) :
    (contrastivePass cfg epo s).logLines = s.logLines := by
  unfold contrastivePass; split <;> rfl

lemma validationBlock_fields (cfg : Config) (val : ℕ → ℚ) (epo : ℕ) (s : TrainState) :
    (validationBlock cfg val epo s).max_metric = (if s.max_metric < val epo then val epo else s.max_metric)
    ∧ (validationBlock cfg val epo s).model_max = (if s.max_metric < val epo then some epo else s.model_max)
    ∧ (validationBlock cfg val epo s).records = (if s.max_metric < val epo then s.records ++ [val epo] else s.records)
    ∧ (validationBlock cfg val epo s).savedPaths = (if s.max_metric < val epo then s.savedPaths ++ [best_model_epoch_path cfg.model_save_dir cfg.experiment_id epo] else s.savedPaths)
    ∧ (validationBlock cfg val epo s).logLines = (if s.max_metric < val epo then s.logLines ++ [savingCheckpointLine cfg.model_save_dir cfg.experiment_id epo] else s.logLines)
    ∧ (validationBlock cfg val epo s).validated = s.validated ++ [epo] := by
  unfold validationBlock
  by_cases h : s.max_metric < val epo
  · by_cases h2 : (cfg.do_wandb && cfg.wandb_save) = true <;> simp [h, h2, gt_iff_lt]
  · simp [h, gt_iff_lt]

/-- C3: a validation pass whose watched metric does not exceed the current
best writes no snapshot (no save I/O, no save log line) and leaves
`model_max`, `max_metric`, and the recorded best values unchanged. -/
theorem no_checkpoint_without_improvement (cfg : Config) (val : ℕ → ℚ) (epo : ℕ)
    (s : TrainState) (h : val epo ≤ s.max_metric) :
    (validationBlock cfg val epo s).max_metric = s.max_metric
    ∧ (validationBlock cfg val epo s).model_max = s.model_max
    ∧ (validationBlock cfg val epo s).records = s.records
    ∧ (validationBlock cfg val epo s).savedPaths = s.savedPaths
    ∧ (validationBlock cfg val epo s).logLines = s.logLines := by
  obtain ⟨f1, f2, f3, f4, f5, f6⟩ := validationBlock_fields cfg val epo s
  have hn : ¬ s.max_metric < val epo := not_lt.mpr h
  exact ⟨by rw [f1, if_neg hn], by rw [f2, if_neg hn], by rw [f3, if_neg hn],
         by rw [f4, if_neg hn], by rw [f5, if_neg hn]⟩

/-- Witness for C3's theorem at a concrete non-improving pass. -/
theorem no_checkpoint_without_improvement_witness :
    valZero 0 ≤ initState.max_metric
    ∧ (validationBlock cfgZ valZero 0 initState).model_max = initState.model_max :=
  ⟨by decide, (no_checkpoint_without_improvement cfgZ valZero 0 initState (by decide)).2.1⟩

/-- C10: every branch of the datamodule setup overwrites
`config.watch_metric` from the task alone, so the user-supplied value is
ignored: the result is `val/pcc` for `dti_dg` and `val/aupr` otherwise. -/
theorem watch_metric_overridden_by_task (isEnzPredTask : String → Bool)
    (task w₁ w₂ : String) :
    datamoduleSetup isEnzPredTask task w₁ = datamoduleSetup isEnzPredTask task w₂
    ∧ (datamoduleSetup isEnzPredTask task w₁).1
        = (if task = "dti_dg" then ("val/pcc") else ("val/aupr")) := by
  unfold datamoduleSetup
  by_cases h : task = "dti_dg" <;> by_cases h2 : isEnzPredTask task = true <;> simp [h, h2]

/-- C2 counterexample: with the watched metric taking the valid value `0`
on the first validation pass (a legitimate AUPR or Pearson correlation),
the strict comparison against the sentinel `max_metric = 0` fails, so the
first validation pass does **not** trigger a checkpoint: no snapshot is
saved, `model_max` still holds the pre-training copy, and no best value is
recorded. -/
theorem first_validation_sentinel_counterexample :
    (trainLoop cfgZ valZero).validated = [0]
    ∧ (trainLoop cfgZ valZero).model_max = none
    ∧ (trainLoop cfgZ valZero).records = []
    ∧ (trainLoop cfgZ valZero).savedPaths = [] := by decide

/-- C2 as amended: the best value starts at the sentinel `0` and the
comparison is strict, so the first validation pass (epoch 0, which always
validates) triggers a checkpoint if and only if its watched-metric value
is strictly positive. -/
theorem first_validation_checkpoint_iff_positive (cfg : Config) (val : ℕ → ℚ) :
    (0 < val 0 →
      (runEpochs cfg val 1).model_max = some 0
      ∧ (runEpochs cfg val 1).max_metric = val 0
      ∧ (runEpochs cfg val 1).records = [val 0]
      ∧ (runEpochs cfg val 1).savedPaths = [best_model_epoch_path cfg.model_save_dir cfg.experiment_id 0])
    ∧ (val 0 ≤ 0 →
      (runEpochs cfg val 1).model_max = none
      ∧ (runEpochs cfg val 1).max_metric = 0
      ∧ (runEpochs cfg val 1).records = []
      ∧ (runEpochs cfg val 1).savedPaths = []) := by
  have hbody : runEpochs cfg val 1
      = validationBlock cfg val 0 (contrastivePass cfg 0 (supervisedPass cfg 0 initState)) := by
    show epochBody cfg val 0 initState = _
    unfold epochBody
    simp [Nat.zero_mod]
  obtain ⟨f1, f2, f3, f4, f5, f6⟩ :=
    validationBlock_fields cfg val 0 (contrastivePass cfg 0 (supervisedPass cfg 0 initState))
  have hmax : (contrastivePass cfg 0 (supervisedPass cfg 0 initState)).max_metric = 0 := by
    simp [initState]
  have hmm : (contrastivePass cfg 0 (supervisedPass cfg 0 initState)).model_max = none := by
    simp [initState]
  have hrec : (contrastivePass cfg 0 (supervisedPass cfg 0 initState)).records = [] := by
    simp [initState]
  have hsp : (contrastivePass cfg 0 (supervisedPass cfg 0 initState)).savedPaths = [] := by
    simp [initState]
  constructor
  · intro h
    have hlt : (contrastivePass cfg 0 (supervisedPass cfg 0 initState)).max_metric < val 0 := by
      rw [hmax]; exact h
    refine ⟨?_, ?_, ?_, ?_⟩
    · rw [hbody, f2, if_pos hlt]
    · rw [hbody, f1, if_pos hlt]
    · rw [hbody, f3, if_pos hlt, hrec]; exact List.nil_append _
    · rw [hbody, f4, if_pos hlt, hsp]; exact List.nil_append _
  · intro h
    have hnlt : ¬ (contrastivePass cfg 0 (supervisedPass cfg 0 initState)).max_metric < val 0 := by
      rw [hmax]; exact not_lt.mpr h
    refine ⟨?_, ?_, ?_, ?_⟩
    · rw [hbody, f2, if_neg hnlt, hmm]
    · rw [hbody, f1, if_neg hnlt, hmax]
    · rw [hbody, f3, if_neg hnlt, hrec]
    · rw [hbody, f4, if_neg hnlt, hsp]

/-- Witness for C2's amended theorem at a strictly positive first value. -/
theorem first_validation_checkpoint_iff_positive_witness :
    (0 : ℚ) < valOne 0 ∧ (runEpochs cfgZ valOne 1).model_max = some 0 :=
  ⟨by decide, ((first_validation_checkpoint_iff_positive cfgZ valOne).1 (by decide)).1⟩

/-- C1 counterexample: with a run whose only validation pass yields the
valid Pearson correlation `-1`, the pass does not beat the sentinel `0`,
so after one executed validation pass `model_max` still holds the
pre-training snapshot — a snapshot that is not from any validation pass,
so its watched-metric value is not the maximum among the passes executed
so far. -/
theorem best_pointer_counterexample :
    (trainLoop cfgZ valNeg).validated = [0]
    ∧ (trainLoop cfgZ valNeg).model_max = none := by decide

lemma epochBody_eq (cfg : Config) (val : ℕ → ℚ) (epo : ℕ) (s : TrainState) :
    epochBody cfg val epo s
      = (if epo % cfg.every_n_val = 0
         then validationBlock cfg val epo (contrastivePass cfg epo (supervisedPass cfg epo s))
         else contrastivePass cfg epo (supervisedPass cfg epo s)) := rfl

lemma memOfGetLast {α : Type} {l : List α} {a : α} (h : l.getLast? = some a) : a ∈ l := by
  induction l with
  | nil => simp at h
  | cons x xs ih =>
    cases xs with
    | nil =>
      simp [List.getLast?] at h
      simp [h]
    | cons y ys =>
      rw [List.getLast?_cons_cons] at h
      exact List.mem_cons_of_mem _ (ih h)

lemma chainLtAppend {l : List ℚ} {v : ℚ} (h : l.Chain' (· < ·)) (hv : ∀ r ∈ l, r < v) :
    (l ++ [v]).Chain' (· < ·) := by
  rw [List.chain'_append]
  refine ⟨h, List.chain'_singleton v, ?_⟩
  intro x hx y hy
  simp at hy
  subst hy
  exact hv x (memOfGetLast hx)

lemma checkpointInv_validationBlock (cfg : Config) (val : ℕ → ℚ) (epo : ℕ) (s : TrainState)
    (h : CheckpointInv val s) : CheckpointInv val (validationBlock cfg val epo s) := by
  obtain ⟨h1, h2, h3, h4, h5⟩ := h
  obtain ⟨f1, f2, f3, f4, f5, f6⟩ := validationBlock_fields cfg val epo s
  by_cases himp : s.max_metric < val epo
  · rw [if_pos himp] at f1 f2 f3 f4 f5
    refine ⟨?_, ?_, ?_, ?_, ?_⟩
    · rw [f3]
      exact chainLtAppend h1 (fun r hr => lt_of_le_of_lt (h2 r hr) himp)
    · rw [f3, f1]
      intro r hr
      rcases List.mem_append.mp hr with hr | hr
      · exact le_of_lt (lt_of_le_of_lt (h2 r hr) himp)
      · simp at hr; subst hr; exact le_refl _
    · rw [f2, f1, f6]
      intro e he
      injection he with he
      subst he
      exact ⟨List.mem_append.mpr (Or.inr (by simp)), rfl⟩
    · rw [f2]
      intro hn
      exact absurd hn (Option.some_ne_none _)
    · rw [f6, f1]
      intro f hf
      rcases List.mem_append.mp hf with hf | hf
      · exact le_of_lt (lt_of_le_of_lt (h5 f hf) himp)
      · simp at hf; subst hf; exact le_refl _
  · rw [if_neg himp] at f1 f2 f3 f4 f5
    have hle : val epo ≤ s.max_metric := not_lt.mp himp
    refine ⟨?_, ?_, ?_, ?_, ?_⟩
    · rw [f3]; exact h1
    · rw [f3, f1]; exact h2
    · rw [f2, f1, f6]
      intro e he
      obtain ⟨hin, hval⟩ := h3 e he
      exact ⟨List.mem_append.mpr (Or.inl hin), hval⟩
    · rw [f2, f1]; exact h4
    · rw [f6, f1]
      intro f hf
      rcases List.mem_append.mp hf with hf | hf
      · exact h5 f hf
      · simp at hf; subst hf; exact hle

lemma checkpointInv_passes (cfg : Config) (val : ℕ → ℚ) (epo : ℕ) (s : TrainState)
    (h : CheckpointInv val s) :
    CheckpointInv val (contrastivePass cfg epo (supervisedPass cfg epo s)) := by
  unfold CheckpointInv at h ⊢
  simpa using h

lemma checkpointInv_runEpochs (cfg : Config) (val : ℕ → ℚ) :
    ∀ n, CheckpointInv val (runEpochs cfg val n)
  | 0 => by simp [CheckpointInv, runEpochs, initState]
  | n + 1 => by
    have ih := checkpointInv_runEpochs cfg val n
    show CheckpointInv val (epochBody cfg val n (runEpochs cfg val n))
    rw [epochBody_eq]
    by_cases h : n % cfg.every_n_val = 0
    · rw [if_pos h]
      exact checkpointInv_validationBlock cfg val n _ (checkpointInv_passes cfg val n _ ih)
    · rw [if_neg h]
      exact checkpointInv_passes cfg val n _ ih

/-- C1 (amended): across a run, the sequence of best values recorded by
the checkpoint logic is non-decreasing (in fact strictly increasing); and
whenever the best-model pointer holds a snapshot taken at some validation
pass, that snapshot's watched-metric value is the maximum among all
validation passes executed so far.  The amendment: when no validation
value has exceeded the sentinel `0`, the pointer still holds the initial
pre-training copy (`none`), which is not a snapshot of any validation
pass; in that case all validated values are `≤ 0`
(see `best_pointer_counterexample`). -/
theorem checkpoint_monotone_and_best_max (cfg : Config) (val : ℕ → ℚ) :
    (trainLoop cfg val).records.Chain' (· ≤ ·)
    ∧ (∀ e, (trainLoop cfg val).model_max = some e →
        e ∈ (trainLoop cfg val).validated
        ∧ ∀ f ∈ (trainLoop cfg val).validated, val f ≤ val e)
    ∧ ((trainLoop cfg val).model_max = none →
        ∀ f ∈ (trainLoop cfg val).validated, val f ≤ 0) := by
  obtain ⟨h1, h2, h3, h4, h5⟩ := checkpointInv_runEpochs cfg val cfg.epochs
  refine ⟨List.Chain'.imp (fun a b hab => le_of_lt hab) h1, ?_, ?_⟩
  · intro e he
    obtain ⟨hin, hval⟩ := h3 e he
    refine ⟨hin, fun f hf => ?_⟩
    rw [hval]
    exact h5 f hf
  · intro hn f hf
    have hb := h5 f hf
    rwa [h4 hn] at hb

/-- Witness for C1's theorem on a run whose first validation pass wins. -/
theorem checkpoint_monotone_and_best_max_witness :
    (trainLoop cfgB valB).model_max = some 0
    ∧ (0 ∈ (trainLoop cfgB valB).validated
        ∧ ∀ f ∈ (trainLoop cfgB valB).validated, valB f ≤ valB 0) :=
  ⟨by decide, (checkpoint_monotone_and_best_max cfgB valB).2.1 0 (by decide)⟩

lemma runEpochs_validated (cfg : Config) (val : ℕ → ℚ) :
    ∀ n, (runEpochs cfg val n).validated
      = (List.range n).filter (fun e => e % cfg.every_n_val == 0)
  | 0 => by simp [runEpochs, initState]
  | n + 1 => by
    have ih := runEpochs_validated cfg val n
    show (epochBody cfg val n (runEpochs cfg val n)).validated = _
    rw [epochBody_eq, List.range_succ, List.filter_append]
    by_cases h : n % cfg.every_n_val = 0
    · rw [if_pos h]
      obtain ⟨-, -, -, -, -, f6⟩ := validationBlock_fields cfg val n
        (contrastivePass cfg n (supervisedPass cfg n (runEpochs cfg val n)))
      rw [f6]
      simp [ih, h]
    · rw [if_neg h]
      simp [ih, h]

/-- C6: a full validation pass runs exactly at the epochs `e < epochs`
with `e % every_n_val == 0` (hence epoch 0 always validates), and on every
other epoch the epoch body leaves the whole checkpoint state — best value,
best-model pointer, recorded values, saved paths, and the set of validated
epochs — untouched: no metric is computed and no checkpoint is considered. -/
theorem validation_cadence (cfg : Config) (val : ℕ → ℚ) (e : ℕ) :
    (e ∈ (trainLoop cfg val).validated ↔ e < cfg.epochs ∧ e % cfg.every_n_val = 0)
    ∧ (0 < cfg.epochs → 0 ∈ (trainLoop cfg val).validated)
    ∧ (∀ s, ¬ e % cfg.every_n_val = 0 →
        (epochBody cfg val e s).max_metric = s.max_metric
        ∧ (epochBody cfg val e s).model_max = s.model_max
        ∧ (epochBody cfg val e s).records = s.records
        ∧ (epochBody cfg val e s).savedPaths = s.savedPaths
        ∧ (epochBody cfg val e s).validated = s.validated) := by
  refine ⟨?_, ?_, ?_⟩
  · show e ∈ (runEpochs cfg val cfg.epochs).validated ↔ _
    rw [runEpochs_validated]
    simp [List.mem_filter, List.mem_range]
  · intro h
    show (0:ℕ) ∈ (runEpochs cfg val cfg.epochs).validated
    rw [runEpochs_validated]
    simp [List.mem_filter, List.mem_range]
    omega
  · intro s h
    rw [epochBody_eq, if_neg h]
    simp

/-- Witness for C6's theorem: epoch 0 validates, epoch 1 is skipped when
`every_n_val = 2`. -/
theorem validation_cadence_witness :
    (0 < cfgE.epochs ∧ 0 ∈ (trainLoop cfgE valZero).validated)
    ∧ (¬ 1 % cfgE.every_n_val = 0
        ∧ (epochBody cfgE valZero 1 initState).model_max = initState.model_max) :=
  ⟨⟨by decide, (validation_cadence cfgE valZero 0).2.1 (by decide)⟩,
   ⟨by decide, ((validation_cadence cfgE valZero 1).2.2 initState (by decide)).2.1⟩⟩

lemma testingPhase_some (cfg : Config) (err : String) (testEval : Option ℕ → ℚ)
    (s : TrainState) :
    (testingPhase cfg (some err) testEval s).testResult = none
    ∧ (testingPhase cfg (some err) testEval s).returnedModel = s.model_max
    ∧ (testingPhase cfg (some err) testEval s).state.logLines = s.logLines ++ [testingError err]
    ∧ (testingPhase cfg (some err) testEval s).state.savedPaths = s.savedPaths :=
  ⟨rfl, rfl, rfl, rfl⟩

lemma testingPhase_none (cfg : Config) (testEval : Option ℕ → ℚ) (s : TrainState) :
    (testingPhase cfg none testEval s).testResult = some (testEval s.model_max)
    ∧ (testingPhase cfg none testEval s).returnedModel = s.model_max
    ∧ (testingPhase cfg none testEval s).state.savedPaths
        = s.savedPaths ++ [best_model_final_path cfg.model_save_dir cfg.experiment_id]
    ∧ (testingPhase cfg none testEval s).state.model_max = s.model_max := by
  unfold testingPhase
  by_cases h2 : (cfg.do_wandb && cfg.wandb_save) = true <;> simp [h2]

lemma runEpochsE_noFail (cfg : Config) (val : ℕ → ℚ) :
    ∀ n, runEpochsE cfg val noFail n = .ok (runEpochs cfg val n)
  | 0 => rfl
  | n + 1 => by
    unfold runEpochsE
    rw [runEpochsE_noFail cfg val n]
    rfl

lemma runEpochsE_failAt_ok (cfg : Config) (val : ℕ → ℚ) (k : ℕ) (err : String) :
    ∀ n, n ≤ k → runEpochsE cfg val (failAt k err) n = .ok (runEpochs cfg val n)
  | 0, _ => rfl
  | n + 1, h => by
    unfold runEpochsE
    rw [runEpochsE_failAt_ok cfg val k err n (Nat.le_of_succ_le h)]
    have hne : failAt k err n = none := by
      have hnk : ¬ n = k := by omega
      simp [failAt, hnk]
    rw [hne]
    rfl

lemma runEpochsE_failAt_error (cfg : Config) (val : ℕ → ℚ) (k : ℕ) (err : String) :
    ∀ n, k < n → runEpochsE cfg val (failAt k err) n = .error err
  | 0, h => absurd h (Nat.not_lt_zero k)
  | n + 1, h => by
    unfold runEpochsE
    by_cases hk : k < n
    · rw [runEpochsE_failAt_error cfg val k err n hk]
    · have hek : n = k := by omega
      rw [runEpochsE_failAt_ok cfg val k err n (by omega)]
      subst hek
      simp [failAt]

lemma mainRun_noFail (cfg : Config) (val : ℕ → ℚ) (testFail : Option String)
    (testEval : Option ℕ → ℚ) :
    mainRun cfg val noFail testFail testEval
      = .ok (testingPhase cfg testFail testEval (trainLoop cfg val)) := by
  unfold mainRun trainLoop
  rw [runEpochsE_noFail]

/-- C4: any error raised inside the terminal test block is caught and
logged, and `main` still returns `model_max` as gathered by the epoch
loop; whereas an error raised during any epoch of the (unguarded) epoch
loop propagates and aborts the run. -/
theorem terminal_failure_recovered_epoch_failure_fatal (cfg : Config) (val : ℕ → ℚ)
    (testEval : Option ℕ → ℚ) (err : String) :
    (∃ r, mainRun cfg val noFail (some err) testEval = .ok r
       ∧ r.returnedModel = (trainLoop cfg val).model_max
       ∧ r.testResult = none
       ∧ r.state.logLines = (trainLoop cfg val).logLines ++ [testingError err])
    ∧ (∀ k tf, k < cfg.epochs →
        mainRun cfg val (failAt k err) tf testEval = .error err) := by
  constructor
  · exact ⟨testingPhase cfg (some err) testEval (trainLoop cfg val),
      mainRun_noFail cfg val (some err) testEval,
      (testingPhase_some cfg err testEval (trainLoop cfg val)).2.1,
      (testingPhase_some cfg err testEval (trainLoop cfg val)).1,
      (testingPhase_some cfg err testEval (trainLoop cfg val)).2.2.1⟩
  · intro k tf hk
    unfold mainRun
    rw [runEpochsE_failAt_error cfg val k err cfg.epochs hk]

/-- Witness for C4's theorem: a one-epoch run whose epoch 0 fails aborts
with the error. -/
theorem terminal_failure_recovered_epoch_failure_fatal_witness :
    0 < cfgZ.epochs
    ∧ mainRun cfgZ valZero (failAt 0 errDisk) none testEvalZero = .error errDisk :=
  ⟨by decide,
   (terminal_failure_recovered_epoch_failure_fatal cfgZ valZero testEvalZero errDisk).2
     0 none (by decide)⟩

/-- C5: with no failure, the terminal test pass evaluates the
best-checkpointed snapshot `model_max` (not the final-epoch model), and
the final snapshot is persisted again under the stable path
`{experiment_id}_best_model.pt`, which differs from every per-epoch
checkpoint path; the run `trainLoop cfgB valB` shows the tested snapshot
can indeed differ from the final-epoch model (best at epoch 0 of 2). -/
theorem terminal_test_uses_best_model_final_path (cfg : Config) (val : ℕ → ℚ)
    (testEval : Option ℕ → ℚ) :
    (∃ r, mainRun cfg val noFail none testEval = .ok r
       ∧ r.testResult = some (testEval (trainLoop cfg val).model_max)
       ∧ r.returnedModel = (trainLoop cfg val).model_max
       ∧ r.state.savedPaths = (trainLoop cfg val).savedPaths
           ++ [best_model_final_path cfg.model_save_dir cfg.experiment_id])
    ∧ (∀ d eid e, (best_model_epoch_path d eid e == best_model_final_path d eid) = false)
    ∧ ((trainLoop cfgB valB).model_max = some 0 ∧ cfgB.epochs = 2) := by
  refine ⟨?_, ?_, ?_⟩
  · exact ⟨testingPhase cfg none testEval (trainLoop cfg val),
      mainRun_noFail cfg val none testEval,
      (testingPhase_none cfg testEval (trainLoop cfg val)).1,
      (testingPhase_none cfg testEval (trainLoop cfg val)).2.1,
      (testingPhase_none cfg testEval (trainLoop cfg val)).2.2.1⟩
  · intro d eid e
    rw [beq_eq_false_iff_ne]
    intro hcontr
    have hlen := congrArg String.length hcontr
    have e1 : ("/" : String).length = 1 := rfl
    have e2 : ("_best_model_epoch" : String).length = 17 := rfl
    have e3 : (".pt" : String).length = 3 := rfl
    have e4 : ("_best_model.pt" : String).length = 14 := rfl
    simp only [best_model_epoch_path, best_model_final_path, String.length_append,
      e1, e2, e3, e4] at hlen
    omega
  · exact ⟨by decide, by decide⟩

lemma trainingView_passes (cfg : Config) (epo : ℕ) (s : TrainState) :
    trainingView (contrastivePass cfg epo (supervisedPass cfg epo s)) = trainingView s := by
  unfold trainingView
  simp

lemma validationBlock_view (cfg₁ cfg₂ : Config) (val : ℕ → ℚ) (epo : ℕ) (s₁ s₂ : TrainState)
    (hdir : cfg₁.model_save_dir = cfg₂.model_save_dir)
    (hid : cfg₁.experiment_id = cfg₂.experiment_id)
    (h : trainingView s₁ = trainingView s₂) :
    trainingView (validationBlock cfg₁ val epo s₁)
      = trainingView (validationBlock cfg₂ val epo s₂) := by
  have c1 : s₁.max_metric = s₂.max_metric := congrArg (fun t => t.1) h
  have c2 : s₁.model_max = s₂.model_max := congrArg (fun t => t.2.1) h
  have c3 : s₁.records = s₂.records := congrArg (fun t => t.2.2.1) h
  have c4 : s₁.savedPaths = s₂.savedPaths := congrArg (fun t => t.2.2.2.1) h
  have c5 : s₁.validated = s₂.validated := congrArg (fun t => t.2.2.2.2) h
  obtain ⟨a1, a2, a3, a4, a5, a6⟩ := validationBlock_fields cfg₁ val epo s₁
  obtain ⟨b1, b2, b3, b4, b5, b6⟩ := validationBlock_fields cfg₂ val epo s₂
  unfold trainingView
  rw [a1, a2, a3, a4, a6, b1, b2, b3, b4, b6, c1, c2, c3, c4, c5, hdir, hid]

lemma epochBody_view (cfg₁ cfg₂ : Config) (val : ℕ → ℚ) (epo : ℕ) (s₁ s₂ : TrainState)
    (hval : cfg₁.every_n_val = cfg₂.every_n_val)
    (hdir : cfg₁.model_save_dir = cfg₂.model_save_dir)
    (hid : cfg₁.experiment_id = cfg₂.experiment_id)
    (h : trainingView s₁ = trainingView s₂) :
    trainingView (epochBody cfg₁ val epo s₁) = trainingView (epochBody cfg₂ val epo s₂) := by
  rw [epochBody_eq, epochBody_eq, hval]
  by_cases hv : epo % cfg₂.every_n_val = 0
  · rw [if_pos hv, if_pos hv]
    refine validationBlock_view cfg₁ cfg₂ val epo _ _ hdir hid ?_
    rw [trainingView_passes, trainingView_passes]
    exact h
  · rw [if_neg hv, if_neg hv, trainingView_passes, trainingView_passes]
    exact h

lemma runEpochs_view (cfg₁ cfg₂ : Config) (val : ℕ → ℚ)
    (hval : cfg₁.every_n_val = cfg₂.every_n_val)
    (hdir : cfg₁.model_save_dir = cfg₂.model_save_dir)
    (hid : cfg₁.experiment_id = cfg₂.experiment_id) :
    ∀ n, trainingView (runEpochs cfg₁ val n) = trainingView (runEpochs cfg₂ val n)
  | 0 => rfl
  | n + 1 =>
    epochBody_view cfg₁ cfg₂ val n _ _ hval hdir hid
      (runEpochs_view cfg₁ cfg₂ val hval hdir hid n)

/-- C9: two runs identical except for the presence of the wandb sink (and
its artifact-saving flag) have identical training behavior: the same best
value, best-model pointer, recorded values, saved checkpoints and
validation history, and `main` returns the same best model.  Telemetry
emission never alters training state. -/
theorem telemetry_sink_no_training_effect (cfg : Config) (val : ℕ → ℚ)
    (testEval : Option ℕ → ℚ) (b₁ w₁ b₂ w₂ : Bool) :
    trainingView (trainLoop { cfg with do_wandb := b₁, wandb_save := w₁ } val)
      = trainingView (trainLoop { cfg with do_wandb := b₂, wandb_save := w₂ } val)
    ∧ Except.map RunResult.returnedModel
        (mainRun { cfg with do_wandb := b₁, wandb_save := w₁ } val noFail none testEval)
      = Except.map RunResult.returnedModel
        (mainRun { cfg with do_wandb := b₂, wandb_save := w₂ } val noFail none testEval) := by
  have hview : trainingView (trainLoop { cfg with do_wandb := b₁, wandb_save := w₁ } val)
      = trainingView (trainLoop { cfg with do_wandb := b₂, wandb_save := w₂ } val) := by
    unfold trainLoop
    exact runEpochs_view { cfg with do_wandb := b₁, wandb_save := w₁ }
      { cfg with do_wandb := b₂, wandb_save := w₂ } val rfl rfl rfl cfg.epochs
  refine ⟨hview, ?_⟩
  rw [mainRun_noFail, mainRun_noFail]
  have h1 := (testingPhase_none { cfg with do_wandb := b₁, wandb_save := w₁ } testEval
    (trainLoop { cfg with do_wandb := b₁, wandb_save := w₁ } val)).2.1
  have h2 := (testingPhase_none { cfg with do_wandb := b₂, wandb_save := w₂ } testEval
    (trainLoop { cfg with do_wandb := b₂, wandb_save := w₂ } val)).2.1
  have hmm : (trainLoop { cfg with do_wandb := b₁, wandb_save := w₁ } val).model_max
      = (trainLoop { cfg with do_wandb := b₂, wandb_save := w₂ } val).model_max :=
    congrArg (fun t => t.2.1) hview
  simp [Except.map, h1, h2, hmm]

lemma pairwiseOfAll {α : Type} (R : α → α → Prop) (h : ∀ a b, R a b) :
    ∀ l : List α, l.Pairwise R
  | [] => List.Pairwise.nil
  | x :: xs => List.Pairwise.cons (fun b _ => h x b) (pairwiseOfAll R h xs)

lemma count_map_eq_zero {α β : Type} [DecidableEq β] (f : α → β) (l : List α) (b : β)
    (h : ∀ a, f a ≠ b) : (l.map f).count b = 0 := by
  rw [List.count_eq_zero]
  intro hb
  obtain ⟨a, -, ha⟩ := List.mem_map.mp hb
  exact h a ha

lemma rank_sorted (cfg : Config) (epo : ℕ) :
    (epochTrace cfg epo).Pairwise (fun a b => rank a ≤ rank b) := by
  unfold epochTrace
  by_cases hc : cfg.contrastive = true <;> by_cases hv : epo % cfg.every_n_val = 0 <;>
    simp [hc, hv, List.pairwise_append, List.pairwise_map, List.mem_map, rank] <;>
    (repeat' apply And.intro) <;>
      first
        | exact pairwiseOfAll _ (fun a b => trivial) _
        | (intro a' h'; cases a' <;> simp_all [rank])

theorem countRange (a n : ℕ) : (List.range n).count a = if a < n then 1 else 0 := by
  induction n with
  | zero => simp
  | succ j ih =>
    rw [List.range_succ, List.count_append, ih]
    rcases Nat.lt_trichotomy a j with h | h | h
    · have h1 : a < j + 1 := by omega
      have h2 : a ≠ j := by omega
      simp [h, h1, h2]
    · subst h; simp
    · have h1 : ¬ a < j := by omega
      have h2 : ¬ a < j + 1 := by omega
      have h3 : a ≠ j := by omega
      simp [h1, h2, h3]

lemma count_supStep (cfg : Config) (epo i : ℕ) :
    (epochTrace cfg epo).count (Ev.supStep epo i) = if i < cfg.nTrainBatches then 1 else 0 := by
  unfold epochTrace
  have hinj : Function.Injective (Ev.supStep epo) := by
    intro a b hab
    injection hab
  have z : (List.map (Ev.conStep epo) (List.range cfg.nContrastiveBatches)).count
      (Ev.supStep epo i) = 0 :=
    count_map_eq_zero _ _ _ (fun a => by simp)
  by_cases hc : cfg.contrastive = true <;> by_cases hv : epo % cfg.every_n_val = 0 <;>
    simp [hc, hv, List.count_append, List.count_map_of_injective _ _ hinj, countRange, z]

lemma count_supSched (cfg : Config) (epo : ℕ) :
    (epochTrace cfg epo).count (Ev.supSched epo) = 1 := by
  unfold epochTrace
  have z1 : (List.map (Ev.supStep epo) (List.range cfg.nTrainBatches)).count
      (Ev.supSched epo) = 0 :=
    count_map_eq_zero _ _ _ (fun a => by simp)
  have z2 : (List.map (Ev.conStep epo) (List.range cfg.nContrastiveBatches)).count
      (Ev.supSched epo) = 0 :=
    count_map_eq_zero _ _ _ (fun a => by simp)
  by_cases hc : cfg.contrastive = true <;> by_cases hv : epo % cfg.every_n_val = 0 <;>
    simp [hc, hv, List.count_append, z1, z2]

lemma count_conStep (cfg : Config) (epo i : ℕ) :
    (epochTrace cfg epo).count (Ev.conStep epo i)
      = if cfg.contrastive = true ∧ i < cfg.nContrastiveBatches then 1 else 0 := by
  unfold epochTrace
  have hinj : Function.Injective (Ev.conStep epo) := by
    intro a b hab
    injection hab
  have z : (List.map (Ev.supStep epo) (List.range cfg.nTrainBatches)).count
      (Ev.conStep epo i) = 0 :=
    count_map_eq_zero _ _ _ (fun a => by simp)
  by_cases hc : cfg.contrastive = true <;> by_cases hv : epo % cfg.every_n_val = 0 <;>
    simp [hc, hv, List.count_append, List.count_map_of_injective _ _ hinj, countRange, z]

lemma count_conSched (cfg : Config) (epo : ℕ) :
    (epochTrace cfg epo).count (Ev.conSched epo)
      = if cfg.contrastive = true then 1 else 0 := by
  unfold epochTrace
  have z1 : (List.map (Ev.supStep epo) (List.range cfg.nTrainBatches)).count
      (Ev.conSched epo) = 0 :=
    count_map_eq_zero _ _ _ (fun a => by simp)
  have z2 : (List.map (Ev.conStep epo) (List.range cfg.nContrastiveBatches)).count
      (Ev.conSched epo) = 0 :=
    count_map_eq_zero _ _ _ (fun a => by simp)
  by_cases hc : cfg.contrastive = true <;> by_cases hv : epo % cfg.every_n_val = 0 <;>
    simp [hc, hv, List.count_append, z1, z2]

lemma rank_pos_lt {l : List Ev} (hl : l.Pairwise (fun a b => rank a ≤ rank b))
    {p q : ℕ} {a b : Ev} (hp : l[p]? = some a) (hq : l[q]? = some b)
    (hr : rank a < rank b) : p < q := by
  have hpl : p < l.length := (List.getElem?_eq_some.mp hp).1
  have hql : q < l.length := (List.getElem?_eq_some.mp hq).1
  have hpa : l[p] = a := by
    have hg := List.getElem?_eq_getElem hpl
    rw [hg] at hp
    exact Option.some.inj hp
  have hqb : l[q] = b := by
    have hg := List.getElem?_eq_getElem hql
    rw [hg] at hq
    exact Option.some.inj hq
  rcases Nat.lt_trichotomy p q with h | h | h
  · exact h
  · subst h
    rw [hpa] at hqb
    subst hqb
    exact absurd hr (lt_irrefl _)
  · have hle := (List.pairwise_iff_getElem.mp hl) q p hql hpl h
    rw [hpa, hqb] at hle
    omega

/-- C7: in the event trace of one epoch, exactly one supervised optimizer
step occurs per supervised batch and exactly one supervised
learning-rate-scheduler step per epoch (not per batch); one contrastive
optimizer step per contrastive batch and one contrastive scheduler step
per epoch exactly when contrastive training is enabled; every supervised
step precedes every contrastive step (the supervised pass completes
first), every supervised step precedes the supervised scheduler step, and
every contrastive step precedes the contrastive scheduler step (the
contrastive schedule is advanced only after the contrastive pass
completes). -/
theorem epoch_pass_ordering (cfg : Config) (epo : ℕ) :
    ((∀ i, (epochTrace cfg epo).count (Ev.supStep epo i)
        = if i < cfg.nTrainBatches then 1 else 0)
      ∧ (epochTrace cfg epo).count (Ev.supSched epo) = 1
      ∧ (∀ i, (epochTrace cfg epo).count (Ev.conStep epo i)
          = if cfg.contrastive = true ∧ i < cfg.nContrastiveBatches then 1 else 0)
      ∧ (epochTrace cfg epo).count (Ev.conSched epo)
          = (if cfg.contrastive = true then 1 else 0))
    ∧ (∀ (p q i j : ℕ), (epochTrace cfg epo)[p]? = some (Ev.supStep epo i) →
        (epochTrace cfg epo)[q]? = some (Ev.conStep epo j) → p < q)
    ∧ (∀ (p q i : ℕ), (epochTrace cfg epo)[p]? = some (Ev.supStep epo i) →
        (epochTrace cfg epo)[q]? = some (Ev.supSched epo) → p < q)
    ∧ (∀ (p q i : ℕ), (epochTrace cfg epo)[p]? = some (Ev.conStep epo i) →
        (epochTrace cfg epo)[q]? = some (Ev.conSched epo) → p < q) := by
  refine ⟨⟨fun i => count_supStep cfg epo i, count_supSched cfg epo,
    fun i => count_conStep cfg epo i, count_conSched cfg epo⟩, ?_, ?_, ?_⟩
  · intro p q i j hp hq
    exact rank_pos_lt (rank_sorted cfg epo) hp hq (by simp [rank])
  · intro p q i hp hq
    exact rank_pos_lt (rank_sorted cfg epo) hp hq (by simp [rank])
  · intro p q i hp hq
    exact rank_pos_lt (rank_sorted cfg epo) hp hq (by simp [rank])

/-- Witness for C7's theorem on a concrete contrastive epoch trace. -/
theorem epoch_pass_ordering_witness :
    ((epochTrace cfgW 0)[0]? = some (Ev.supStep 0 0)
      ∧ (epochTrace cfgW 0)[2]? = some (Ev.conStep 0 0))
    ∧ (0:ℕ) < 2 :=
  ⟨⟨by decide, by decide⟩,
   (epoch_pass_ordering cfgW 0).2.1 0 2 0 0 (by decide) (by decide)⟩

/-- C8 (spec-modelled, `src/margin.py` absent from the sources): for every
epoch index `e` and every schedule policy, the margin produced by the
margin scheduler satisfies `0 ≤ margin e ≤ margin_max` whenever the
configured maximum `M0` is non-negative. -/
theorem margin_bounded (kind : MarginKind) (M0 : ℝ) (Nepoch Nrestart e : ℕ)
    (hM : 0 ≤ M0) :
    0 ≤ margin kind M0 Nepoch Nrestart e ∧ margin kind M0 Nepoch Nrestart e ≤ M0 := by
  cases kind with
  | constant => exact ⟨hM, le_refl M0⟩
  | linear =>
    simp only [margin]
    have h0 : (0:ℝ) ≤ ((min e Nepoch : ℕ) : ℝ) / (Nepoch : ℝ) :=
      div_nonneg (Nat.cast_nonneg _) (Nat.cast_nonneg _)
    have h1 : ((min e Nepoch : ℕ) : ℝ) / (Nepoch : ℝ) ≤ 1 := by
      rcases Nat.eq_zero_or_pos Nepoch with hz | hpos
      · subst hz
        simp
      · rw [div_le_one (by exact_mod_cast hpos)]
        exact_mod_cast Nat.min_le_right e Nepoch
    constructor
    · exact mul_nonneg hM (by linarith)
    · exact mul_le_of_le_one_right hM (by linarith)
  | cosine =>
    simp only [margin]
    have hc1 : Real.cos (Real.pi * ((e % Nrestart : ℕ) : ℝ) / (Nrestart : ℝ)) ≤ 1 :=
      Real.cos_le_one _
    have hc2 : (-1:ℝ) ≤ Real.cos (Real.pi * ((e % Nrestart : ℕ) : ℝ) / (Nrestart : ℝ)) :=
      Real.neg_one_le_cos _
    constructor
    · exact mul_nonneg hM (by linarith)
    · exact mul_le_of_le_one_right hM (by linarith)

/-- Witness for C8's theorem at the cosine policy with `M0 = 2`. -/
theorem margin_bounded_witness :
    (0:ℝ) ≤ 2
    ∧ (0 ≤ margin MarginKind.cosine 2 10 5 3 ∧ margin MarginKind.cosine 2 10 5 3 ≤ 2) :=
  ⟨by norm_num, margin_bounded MarginKind.cosine 2 10 5 3 (by norm_num)⟩
